import Mathlib

/-!
Verification of the task-management dashboard (employee_app.py / manager_app.py).

Shallow embedding of the pure business logic the spec describes:
thread read-status derivation, deadline classification, filename
sanitization, project deletion pre-check, idle-session guard, error
sinks of backend call sites, fetch fallbacks, and group sorting.

Timestamps are modelled as `Int` (seconds since the Unix epoch, UTC);
Python `datetime` comparisons translate to `Int` comparisons. Python
string comparison is code-point lexicographic and is modelled by the
executable `pyStrLe` below; Python `sorted` is a stable sort and is
modelled by `List.insertionSort`, which is also stable.
-/

/-- A comment row as fetched (newest-first) by `fetch_comments`:
only the fields the status derivation reads. -/
structure CommentRec where
  user_id : String
  created_at : Int
deriving DecidableEq, Repr

/-- Status icon strings assigned in the task loops
(employee_app.py lines 381-387, manager_app.py lines 644-650). -/
def STATUS_ANSWERED : String := "✅ Đã trả lời"

/-- Status icon for new activity since last acknowledgment. -/
def STATUS_UNREAD : String := "💬 Mới!"

/-- Status icon for an acknowledged thread with comments. -/
def STATUS_SEEN : String := "✔️ Đã xem"

/-- Thread-status derivation from the task loop
(employee_app.py lines 373-387; identically manager_app.py lines 636-650).
`read_statuses` is the dict built by `fetch_read_statuses`, modelled as an
association list `task_id -> last_read_at`; the `.get` default is the Unix
epoch (`datetime.fromtimestamp(0)`), i.e. `0`. `comments` is the
newest-first list from `fetch_comments`. -/
def derive_status (viewer : String) (tid : Nat) (task_created_at : Int)
    (comments : List CommentRec) (read_statuses : List (Nat × Int)) : String :=
  let status_icon : String := ""
  let last_read_time_utc : Int := (List.lookup tid read_statuses).getD 0
  let last_event_time_utc : Int := task_created_at
  let last_event_time_utc : Int :=
    match comments with
    | [] => last_event_time_utc
    | c :: _ =>
        if c.created_at > last_event_time_utc then c.created_at
        else last_event_time_utc
  match comments with
  | c :: _ =>
      if c.user_id = viewer then STATUS_ANSWERED
      else if last_event_time_utc > last_read_time_utc then STATUS_UNREAD
      else STATUS_SEEN
  | [] =>
      if last_event_time_utc > last_read_time_utc then STATUS_UNREAD
      else status_icon

/-- Thread status written from the specification text (section 4.2):
`lastReadAt` defaults to the Unix epoch when absent,
`lastEventAt = max(taskCreatedAt, latestCommentAt)`, then in order:
newest comment authored by the viewer gives "answered";
else `lastEventAt > lastReadAt` gives "unread";
else any comment gives "seen"; else the empty status. -/
def spec_thread_status (viewer : String) (tid : Nat) (taskCreatedAt : Int)
    (comments : List CommentRec) (read_statuses : List (Nat × Int)) : String :=
  let lastReadAt : Int := (List.lookup tid read_statuses).getD 0
  let lastEventAt : Int :=
    match comments with
    | [] => taskCreatedAt
    | c :: _ => max taskCreatedAt c.created_at
  match comments with
  | c :: _ =>
      if c.user_id = viewer then STATUS_ANSWERED
      else if lastEventAt > lastReadAt then STATUS_UNREAD
      else STATUS_SEEN
  | [] => if lastEventAt > lastReadAt then STATUS_UNREAD else ""

/-- Parsed form of the nullable `due_date` input of `get_deadline_color`:
an absent (falsy) string, an unparseable one (the `except` branch of
`datetime.fromisoformat`), or a parsed instant. -/
inductive DueInput where
  | absent : DueInput
  | unparseable : DueInput
  | parsed : Int → DueInput
deriving DecidableEq, Repr

/-- Deadline background color (employee_app.py lines 84-116, identically
manager_app.py lines 109-141). `days_remaining` is Python
`timedelta.days`, which floors the elapsed-day quotient, i.e.
`(due - now).fdiv 86400`. -/
def get_deadline_color (due_date : DueInput) (now : Int) : String :=
  match due_date with
  | .absent => "#f5f5f5"
  | .unparseable => "#f5f5f5"
  | .parsed due =>
      let days_remaining : Int := Int.fdiv (due - now) 86400
      if days_remaining < 3 then "#ffebee"
      else if 3 ≤ days_remaining ∧ days_remaining < 7 then "#fff3e0"
      else if 7 ≤ days_remaining ∧ days_remaining < 15 then "#fffde7"
      else "#e8f5e9"

/-- Urgency buckets named by the specification (section 4.1). -/
inductive Bucket where
  | urgent | soon | moderate | relaxed | neutral
deriving DecidableEq, Repr

/-- Deadline classifier written from the specification text (section 4.1):
whole days remaining, floored; `remaining < 3` urgent, `3 ≤ r < 7` soon,
`7 ≤ r < 15` moderate, `r ≥ 15` relaxed, absent/unparseable neutral. -/
def spec_bucket (due_date : DueInput) (now : Int) : Bucket :=
  match due_date with
  | .absent => .neutral
  | .unparseable => .neutral
  | .parsed due =>
      let r : Int := Int.fdiv (due - now) 86400
      if r < 3 then .urgent
      else if r < 7 then .soon
      else if r < 15 then .moderate
      else .relaxed

/-- Background color the code uses for each spec bucket. -/
def bucket_color : Bucket → String
  | .urgent => "#ffebee"
  | .soon => "#fff3e0"
  | .moderate => "#fffde7"
  | .relaxed => "#e8f5e9"
  | .neutral => "#f5f5f5"

/-- Python `\s` whitespace class over the ASCII range (the sanitized
input is pure ASCII by the time the regexes run). -/
def isPySpace (c : Char) : Bool :=
  c == ' ' || c == '\t' || c == '\n' || c == '\r' ||
  c == '\x0b' || c == '\x0c'

/-- Python `\w` word class over the ASCII range: letters, digits,
underscore. -/
def isWordChar (c : Char) : Bool :=
  c.isAlphanum || c == '_'

/-- Models `unicodedata.normalize('NFKD', s).encode('ascii', 'ignore')`
character-wise, for the characters this repository's data exercises:
ASCII characters pass through; precomposed Latin letters decompose to
their ASCII base letter (the combining marks are non-ASCII and dropped
by the `ignore` encode); characters with no ASCII-yielding
decomposition (e.g. đ) are dropped entirely. -/
def nfkdAsciiChar (c : Char) : List Char :=
  if c.toNat < 128 then [c]
  else
    match c with
    | 'á' => ['a'] | 'à' => ['a'] | 'ả' => ['a'] | 'ã' => ['a'] | 'ạ' => ['a']
    | 'é' => ['e'] | 'è' => ['e'] | 'ẻ' => ['e'] | 'ẽ' => ['e'] | 'ẹ' => ['e']
    | 'í' => ['i'] | 'ì' => ['i'] | 'ỉ' => ['i'] | 'ĩ' => ['i'] | 'ị' => ['i']
    | 'ó' => ['o'] | 'ò' => ['o'] | 'ỏ' => ['o'] | 'õ' => ['o'] | 'ọ' => ['o']
    | 'ú' => ['u'] | 'ù' => ['u'] | 'ủ' => ['u'] | 'ũ' => ['u'] | 'ụ' => ['u']
    | 'ý' => ['y'] | 'ô' => ['o'] | 'ơ' => ['o'] | 'â' => ['a'] | 'ă' => ['a']
    | 'ê' => ['e'] | 'ư' => ['u']
    | 'Á' => ['A'] | 'À' => ['A'] | 'É' => ['E'] | 'È' => ['E']
    | 'Ó' => ['O'] | 'Ò' => ['O'] | 'Ú' => ['U'] | 'Ù' => ['U']
    | _ => []

/-- Python `str.strip()`: whitespace removed from both ends. -/
def stripChars (l : List Char) : List Char :=
  ((l.dropWhile isPySpace).reverse.dropWhile isPySpace).reverse

/-- Second regex of `sanitize_filename`: `re.sub(r'[-\s]+', '-', value)`.
Each maximal run of whitespace/hyphen characters is replaced by a single
hyphen; `inRun` records whether the previous character belonged to the
current run. -/
def collapseRuns (inRun : Bool) : List Char → List Char
  | [] => []
  | c :: cs =>
      if isPySpace c || c == '-' then
        if inRun then collapseRuns true cs
        else '-' :: collapseRuns true cs
      else c :: collapseRuns false cs

/-- `sanitize_filename` (employee_app.py lines 118-129, identically
manager_app.py lines 143-154): NFKD-normalize and drop non-ASCII, remove
characters outside `[\w\s.-]`, strip, collapse whitespace/hyphen runs to
a single hyphen. -/
def sanitize_filename (filename : String) : String :=
  let ascii : List Char := (filename.toList.map nfkdAsciiChar).flatten
  let kept : List Char :=
    ascii.filter (fun c => isWordChar c || isPySpace c || c == '.' || c == '-')
  let stripped : List Char := stripChars kept
  String.mk (collapseRuns false stripped)

/-- Attachment fields of the comment row built by `add_comment`
(employee_app.py lines 132-170, manager_app.py lines 186-224). -/
structure CommentInsert where
  file_path : String
  attachment_original_name : Option String
deriving DecidableEq, Repr

/-- Attachment handling of `add_comment` when a file is uploaded:
the original name is kept for display and the storage path is built
from the sanitized name
(`f"task_{task_id}/{user_id}_{int(...timestamp())}_{sanitized_name}"`). -/
def add_comment_record (task_id : Nat) (user_id : String) (ts : Nat)
    (name : String) : CommentInsert :=
  { file_path := "task_" ++ toString task_id ++ "/" ++ user_id ++ "_" ++
      toString ts ++ "_" ++ sanitize_filename name,
    attachment_original_name := some name }

/-- Decidable check that a character list never has two hyphens in a row. -/
def noAdjacentHyphens : List Char → Bool
  | [] => true
  | [_] => true
  | a :: b :: rest => !(a == '-' && b == '-') && noAdjacentHyphens (b :: rest)

/-- Outcome of `delete_project` (manager_app.py lines 303-315). -/
structure DeleteProjectOutcome where
  error_message : Option String
  project_deleted : Bool
deriving DecidableEq, Repr

/-- `delete_project`: a count pre-check runs before any delete; a positive
referencing-task count aborts with a human-readable message and no row
is removed, otherwise the delete proceeds. -/
def delete_project (task_count : Nat) : DeleteProjectOutcome :=
  if task_count > 0 then
    { error_message := some ("Không thể xóa dự án. Vẫn còn " ++
        toString task_count ++ " công việc thuộc dự án này."),
      project_deleted := false }
  else
    { error_message := none, project_deleted := true }

/-- Idle timeout constant (both apps): 1800 seconds. -/
def TIMEOUT_IN_SECONDS : Int := 1800

/-- One render of the idle-expiry check (employee_app.py lines 222-244,
manager_app.py lines 439-456). Returns `is_expired` together with the
session's `last_activity_time` after the render: it is refreshed to
`now` only when the session is not expired. -/
def idle_check (last_activity_time : Option Int) (now : Int) :
    Bool × Option Int :=
  let is_expired : Bool :=
    match last_activity_time with
    | some t => decide (now - t > TIMEOUT_IN_SECONDS)
    | none => false
  (is_expired, if is_expired then last_activity_time else some now)

/-- Whether the status-update write fires in the employee task expander
(employee_app.py lines 460-471): the selectbox is disabled when
`is_task_locked` and the write is guarded by
`new_status != task['status'] and not is_task_locked`. -/
def status_update_executes (is_task_locked : Bool)
    (current new_status : String) : Bool :=
  (new_status != current) && !is_task_locked

/-- Task status visible after a status-change attempt. -/
def task_status_after (is_task_locked : Bool)
    (current new_status : String) : String :=
  if status_update_executes is_task_locked current new_status then new_status
  else current

/-- Outcome of one submission of the employee comment form
(employee_app.py lines 516-539). -/
structure CommentFormOutcome where
  draft_echoed : Bool
  echoed_text : Option String
  echoed_file : Option String
  submitted_to_backend : Bool
deriving DecidableEq, Repr

/-- Employee comment-form submit handling: when the form is locked and a
draft exists, the draft text and attached filename are echoed back; the
backend submit fires only when `not is_expired` and a draft exists.
`content`/`file_name` are `none` when the widget is empty (Python
falsiness). `is_task_locked = is_manager_completed or is_expired`
(employee_app.py line 370). -/
def comment_form_step (is_expired is_manager_completed submitted : Bool)
    (content file_name : Option String) : CommentFormOutcome :=
  let is_task_locked : Bool := is_manager_completed || is_expired
  let has_draft : Bool := content.isSome || file_name.isSome
  { draft_echoed := submitted && is_task_locked && has_draft,
    echoed_text :=
      if submitted && is_task_locked && has_draft then content else none,
    echoed_file :=
      if submitted && is_task_locked && has_draft then file_name else none,
    submitted_to_backend := submitted && has_draft && !is_expired }

/-- Whether the mark-as-read upsert fires
(employee_app.py lines 446-451, manager_app.py lines 688-693):
the button renders only under `has_new_message`, its `disabled` flag is
`is_expired` alone (a disabled button cannot report a click), and the
click is additionally guarded by `and not is_expired`. The
`is_manager_completed` flag is accepted here because the surrounding
code computes it, but the button logic never consults it. -/
def mark_read_executes (has_new_message is_expired _is_manager_completed
    clicked : Bool) : Bool :=
  has_new_message && (clicked && !is_expired) && !is_expired

/-- Core backend call sites whose `except` blocks the apps define
(both files; `add_comment` has one for the storage upload and one for
the row insert). -/
inductive CoreOp where
  | fetch_my_tasks_op | fetch_comments_op | fetch_read_statuses_op
  | mark_task_as_read_op | add_comment_upload_op | add_comment_insert_op
  | update_task_status_op | delete_project_op
deriving DecidableEq, Repr

/-- Where each call site's `except` block reports the failure. -/
inductive ErrorSink where
  | userMessage | consoleLog
deriving DecidableEq, Repr

/-- Error reporting per call site, transcribed from the `except` blocks:
every handler calls `st.error(...)` except `mark_task_as_read`, whose
handler is `print(f"Không thể đánh dấu đã đọc ...")`
(employee_app.py line 82, manager_app.py line 183). -/
def error_sink : CoreOp → ErrorSink
  | .fetch_my_tasks_op => .userMessage
  | .fetch_comments_op => .userMessage
  | .fetch_read_statuses_op => .userMessage
  | .mark_task_as_read_op => .consoleLog
  | .add_comment_upload_op => .userMessage
  | .add_comment_insert_op => .userMessage
  | .update_task_status_op => .userMessage
  | .delete_project_op => .userMessage

/-- A task row as far as sorting and fetching are concerned: only the
nullable due-date string matters. -/
structure GTask where
  due_date : Option String
deriving DecidableEq, Repr

/-- `fetch_my_tasks` result (employee_app.py lines 35-43):
`response.data if response.data else []`, and `[]` from the handler. -/
def fetch_my_tasks_result (resp : Except String (List GTask)) :
    List GTask :=
  match resp with
  | .ok data => if data.isEmpty then [] else data
  | .error _ => []

/-- `fetch_comments` result (employee_app.py lines 45-53):
`response.data if response.data else []`, and `[]` from the handler. -/
def fetch_comments_result (resp : Except String (List CommentRec)) :
    List CommentRec :=
  match resp with
  | .ok data => if data.isEmpty then [] else data
  | .error _ => []

/-- `fetch_read_statuses` result (employee_app.py lines 55-66): the
`task_id -> last_read_at` dict built from the rows, `{}` when there are
no rows, and `{}` from the handler. -/
def fetch_read_statuses_result (resp : Except String (List (Nat × Int))) :
    List (Nat × Int) :=
  match resp with
  | .ok rows => if rows.isEmpty then [] else rows
  | .error _ => []

/-- Python string `<=`, code-point lexicographic, on character lists. -/
def pyStrLeL : List Char → List Char → Bool
  | [], _ => true
  | _ :: _, [] => false
  | x :: xs, y :: ys =>
      if x.toNat < y.toNat then true
      else if y.toNat < x.toNat then false
      else pyStrLeL xs ys

/-- Python string `<=` on strings. -/
def pyStrLe (a b : String) : Bool :=
  pyStrLeL a.toList b.toList

/-- One step of Python `min` over strings: the accumulator is kept
unless the next element is strictly smaller (ties keep the earlier
element, as Python `min` does). -/
def pyMin (m x : String) : String :=
  if pyStrLe m x then m else x

/-- Sort key of a task inside a group: `t.get('due_date') or '9999'`. -/
def due_key (t : GTask) : String :=
  t.due_date.getD "9999"

/-- Minimum member due key of a (nonempty) group:
`min(t.get('due_date') or '9999' for t in item[1])`. -/
def min_due_key : List GTask → String
  | [] => "9999"
  | t :: rest => (rest.map due_key).foldl pyMin (due_key t)

/-- Employee-app group ordering (employee_app.py line 347):
`sorted(projects_to_display.items(), key=lambda item: min(...))` — a
stable sort on the group's minimum member due key. The group key is
modelled by its display string; `List.insertionSort` is stable like
Python `sorted`. -/
def sorted_projects (groups : List (String × List GTask)) :
    List (String × List GTask) :=
  @List.insertionSort _
    (fun a b => pyStrLe (min_due_key a.2) (min_due_key b.2) = true)
    (fun _ _ => instDecidableEqBool _ _) groups

/-- Manager-app group ordering (manager_app.py line 614):
`sorted(tasks_to_display.items(), key=lambda item: str(item[0]))` — a
stable sort on the string form of the group key, never on due dates. -/
def sorted_grouped_tasks (groups : List (String × List GTask)) :
    List (String × List GTask) :=
  @List.insertionSort _
    (fun a b => pyStrLe a.1 b.1 = true)
    (fun _ _ => instDecidableEqBool _ _) groups

/-- Transitivity of the code-point lexicographic order. -/
theorem pyStrLeL_trans : ∀ (a b c : List Char),
    pyStrLeL a b = true → pyStrLeL b c = true → pyStrLeL a c = true := by
  intro a
  induction a with
  | nil => intro b c _ _; rfl
  | cons x xs ih =>
      intro b c hab hbc
      cases b with
      | nil => simp [pyStrLeL] at hab
      | cons y ys =>
          cases c with
          | nil => simp [pyStrLeL] at hbc
          | cons z zs =>
              simp only [pyStrLeL] at hab hbc ⊢
              split_ifs at hab hbc ⊢ <;>
                first
                | rfl
                | omega
                | exact ih ys zs hab hbc

/-- Totality of the code-point lexicographic order. -/
theorem pyStrLeL_total : ∀ (a b : List Char),
    pyStrLeL a b = true ∨ pyStrLeL b a = true := by
  intro a
  induction a with
  | nil => intro b; left; rfl
  | cons x xs ih =>
      intro b
      cases b with
      | nil => right; rfl
      | cons y ys =>
          simp only [pyStrLeL]
          rcases Nat.lt_trichotomy x.toNat y.toNat with h | h | h
          · left; rw [if_pos h]
          · have h1 : ¬ x.toNat < y.toNat := by omega
            have h2 : ¬ y.toNat < x.toNat := by omega
            rcases ih ys with hl | hr
            · left; rw [if_neg h1, if_neg h2]; exact hl
            · right; rw [if_neg h2, if_neg h1]; exact hr
          · right; rw [if_pos h]

/-- C1: for every task viewed by a user, the derived thread status
follows the spec's precedence — with `lastReadAt` defaulting to the Unix
epoch when no ReadStatus row exists and
`lastEventAt = max(taskCreatedAt, latestCommentAt)`, the status is
"answered" when the newest comment's author is the viewing user
(regardless of any read timestamp), else "unread" exactly when
`lastEventAt > lastReadAt`, else "seen" when at least one comment
exists. -/
theorem C1_thread_status_follows_spec :
    ∀ (viewer : String) (tid : Nat) (created : Int)
      (comments : List CommentRec) (reads : List (Nat × Int)),
      derive_status viewer tid created comments reads =
        spec_thread_status viewer tid created comments reads := by
  intro viewer tid created comments reads
  cases comments with
  | nil => rfl
  | cons c rest =>
      simp only [derive_status, spec_thread_status]
      have hmax : (if c.created_at > created then c.created_at else created) =
          max created c.created_at := by
        rcases lt_or_ge created c.created_at with h | h
        · rw [if_pos h, max_eq_right h.le]
        · rw [if_neg (not_lt.mpr h), max_eq_left h]
      simp only [hmax]

/-- C2 counterexample: a task created after the epoch with no comments
and no read-status row derives the "new activity" status, not the empty
status the claim asserts. -/
theorem C2_counterexample :
    derive_status "alice" 1 100 [] [] = STATUS_UNREAD ∧ STATUS_UNREAD ≠ "" := by
  constructor <;> decide

/-- C2 amended: with no comments and no read-status row, the derived
status is "unread" whenever the creation instant lies strictly after the
Unix epoch, and the empty "no discussion" status appears only when the
creation instant does not exceed the epoch default. -/
theorem C2_fresh_task_status :
    ∀ (viewer : String) (tid : Nat) (t0 : Int),
      (0 < t0 → derive_status viewer tid t0 [] [] = STATUS_UNREAD) ∧
      (t0 ≤ 0 → derive_status viewer tid t0 [] [] = "") := by
  intro viewer tid t0
  constructor <;> intro h <;> simp only [derive_status, List.lookup_nil,
    Option.getD_none] <;> [rw [if_pos h]; rw [if_neg (by omega)]]

/-- C2 amended witness at concrete instants 5 and 0. -/
theorem C2_fresh_task_status_witness :
    derive_status "u" 1 5 [] [] = STATUS_UNREAD ∧
      derive_status "u" 1 0 [] [] = "" :=
  ⟨(C2_fresh_task_status "u" 1 5).1 (by norm_num),
   (C2_fresh_task_status "u" 1 0).2 (by norm_num)⟩

/-- C3: the deadline classifier agrees everywhere with the spec's
four-bucket floor-day classification, is total (absent and unparseable
inputs map to the neutral color rather than raising), a due instant
exactly now is urgent, now+3d is soon, now+7d is moderate and now+15d is
relaxed. -/
theorem C3_deadline_classifier :
    (∀ (due : DueInput) (now : Int),
        get_deadline_color due now = bucket_color (spec_bucket due now)) ∧
    (∀ now : Int, get_deadline_color (.parsed now) now = bucket_color .urgent) ∧
    (∀ now : Int,
        get_deadline_color (.parsed (now + 3 * 86400)) now = bucket_color .soon) ∧
    (∀ now : Int,
        get_deadline_color (.parsed (now + 7 * 86400)) now =
          bucket_color .moderate) ∧
    (∀ now : Int,
        get_deadline_color (.parsed (now + 15 * 86400)) now =
          bucket_color .relaxed) ∧
    (∀ now : Int, get_deadline_color .absent now = bucket_color .neutral ∧
        get_deadline_color .unparseable now = bucket_color .neutral) := by
  have hagree : ∀ (due : DueInput) (now : Int),
      get_deadline_color due now = bucket_color (spec_bucket due now) := by
    intro due now
    cases due with
    | absent => rfl
    | unparseable => rfl
    | parsed d =>
        simp only [get_deadline_color, spec_bucket]
        split_ifs with h1 h2 h3 h4 h5 <;> first | rfl | omega
  refine ⟨hagree, ?_, ?_, ?_, ?_, fun now => ⟨rfl, rfl⟩⟩ <;>
    intro now <;> rw [hagree] <;>
    simp only [spec_bucket] <;>
    [rw [show now - now = (0:Int) by omega];
     rw [show now + 3 * 86400 - now = (259200:Int) by omega];
     rw [show now + 7 * 86400 - now = (604800:Int) by omega];
     rw [show now + 15 * 86400 - now = (1296000:Int) by omega]] <;>
    decide

/-- C4 counterexample: with the session not idle-expired, a
manager-locked (completed) task that shows a new message still executes
the mark-as-read write when the button is clicked — the affordance is
not disabled by the manager lock. -/
theorem C4_counterexample :
    mark_read_executes true false true true = true := by decide

/-- C4 amended: the mark-as-read action never executes when the session
is idle-expired (the button is disabled and its click guard rechecks
expiry), for every combination of new-message flag, manager lock and
click; manager-locking alone does not disable it. -/
theorem C4_mark_read_disabled_only_by_expiry :
    ∀ (has_new_message is_manager_completed clicked : Bool),
      mark_read_executes has_new_message true is_manager_completed clicked
        = false := by decide

/-- C5 counterexample: in the manager app's all-groups display, the
group whose minimum member due timestamp is later ("A", due 2030) is
ordered before the group with the earlier minimum ("B", due 2020),
because the sort key is the group key string, not the due timestamp. -/
theorem C5_counterexample :
    sorted_grouped_tasks
        [("B", [⟨some "2020-01-01"⟩]), ("A", [⟨some "2030-01-01"⟩])] =
      [("A", [⟨some "2030-01-01"⟩]), ("B", [⟨some "2020-01-01"⟩])] ∧
    pyStrLe (min_due_key [GTask.mk (some "2030-01-01")])
        (min_due_key [GTask.mk (some "2020-01-01")]) = false := by
  constructor <;> decide

/-- C7: `delete_project` succeeds (row removed, no error) when zero
tasks reference the project, and for any positive referencing-task
count it reports a human-readable integrity error and removes no row. -/
theorem C7_delete_project_precheck :
    (delete_project 0).project_deleted = true ∧
    (delete_project 0).error_message = none ∧
    (∀ n : Nat, (delete_project (n + 1)).project_deleted = false ∧
        ((delete_project (n + 1)).error_message).isSome = true) := by
  refine ⟨rfl, rfl, fun n => ⟨?_, ?_⟩⟩ <;> simp [delete_project]

/-- C5 amended: in the employee app the all-groups display is a stable
sort ascending on the group's minimum member due key (absent due dates
keyed "9999", hence last), while in the manager app the all-groups
display is always a stable sort ascending on the string form of the
group key, regardless of due dates; both outputs are permutations of
their input. -/
theorem C5_group_ordering :
    (∀ gs : List (String × List GTask),
        (sorted_projects gs).Perm gs ∧
        (sorted_projects gs).Pairwise
          (fun a b => pyStrLe (min_due_key a.2) (min_due_key b.2) = true)) ∧
    (∀ gs : List (String × List GTask),
        (sorted_grouped_tasks gs).Perm gs ∧
        (sorted_grouped_tasks gs).Pairwise
          (fun a b => pyStrLe a.1 b.1 = true)) := by
  constructor
  · intro gs
    haveI hT : IsTotal (String × List GTask)
        (fun a b => pyStrLe (min_due_key a.2) (min_due_key b.2) = true) :=
      ⟨fun a b => pyStrLeL_total _ _⟩
    haveI hR : IsTrans (String × List GTask)
        (fun a b => pyStrLe (min_due_key a.2) (min_due_key b.2) = true) :=
      ⟨fun a b c => pyStrLeL_trans _ _ _⟩
    exact ⟨@List.perm_insertionSort _ _ (fun _ _ => instDecidableEqBool _ _) gs,
      @List.sorted_insertionSort _ _ (fun _ _ => instDecidableEqBool _ _) hT hR gs⟩
  · intro gs
    haveI hT : IsTotal (String × List GTask)
        (fun a b => pyStrLe a.1 b.1 = true) :=
      ⟨fun a b => pyStrLeL_total _ _⟩
    haveI hR : IsTrans (String × List GTask)
        (fun a b => pyStrLe a.1 b.1 = true) :=
      ⟨fun a b c => pyStrLeL_trans _ _ _⟩
    exact ⟨@List.perm_insertionSort _ _ (fun _ _ => instDecidableEqBool _ _) gs,
      @List.sorted_insertionSort _ _ (fun _ _ => instDecidableEqBool _ _) hT hR gs⟩

/-- Characters emitted by `collapseRuns` are either the replacement
hyphen or input characters that are not whitespace and not hyphens. -/
theorem mem_collapseRuns (c : Char) : ∀ (l : List Char) (inRun : Bool),
    c ∈ collapseRuns inRun l →
    c = '-' ∨ (c ∈ l ∧ (isPySpace c || c == '-') = false) := by
  intro l
  induction l with
  | nil => intro inRun h; simp [collapseRuns] at h
  | cons x xs ih =>
      intro inRun h
      simp only [collapseRuns] at h
      by_cases hx : (isPySpace x || x == '-') = true
      · rw [if_pos hx] at h
        cases inRun with
        | true =>
            simp only [if_true] at h
            rcases ih true h with h1 | ⟨h2, h3⟩
            · exact Or.inl h1
            · exact Or.inr ⟨List.mem_cons_of_mem _ h2, h3⟩
        | false =>
            simp only [Bool.false_eq_true, if_false] at h
            rcases List.mem_cons.mp h with rfl | hmem
            · exact Or.inl rfl
            · rcases ih true hmem with h1 | ⟨h2, h3⟩
              · exact Or.inl h1
              · exact Or.inr ⟨List.mem_cons_of_mem _ h2, h3⟩
      · rw [if_neg hx] at h
        rcases List.mem_cons.mp h with rfl | hmem
        · exact Or.inr ⟨List.mem_cons_self _ _, by simpa using hx⟩
        · rcases ih false hmem with h1 | ⟨h2, h3⟩
          · exact Or.inl h1
          · exact Or.inr ⟨List.mem_cons_of_mem _ h2, h3⟩

/-- After a run is open, the collapsed output starts (if nonempty) with
a character that is neither whitespace nor a hyphen. -/
theorem collapseRuns_true_head : ∀ l : List Char,
    collapseRuns true l = [] ∨
    ∃ c cs, collapseRuns true l = c :: cs ∧ (isPySpace c || c == '-') = false := by
  intro l
  induction l with
  | nil => exact Or.inl rfl
  | cons x xs ih =>
      by_cases hx : (isPySpace x || x == '-') = true
      · rw [show collapseRuns true (x :: xs) = collapseRuns true xs from by
          simp [collapseRuns, hx]]
        exact ih
      · exact Or.inr ⟨x, collapseRuns false xs, by simp [collapseRuns, hx],
          by simpa using hx⟩

/-- The collapsed output never contains two hyphens in a row. -/
theorem noAdjacentHyphens_collapseRuns :
    ∀ (l : List Char) (inRun : Bool),
      noAdjacentHyphens (collapseRuns inRun l) = true := by
  intro l
  induction l with
  | nil => intro inRun; rfl
  | cons x xs ih =>
      intro inRun
      by_cases hx : (isPySpace x || x == '-') = true
      · cases inRun with
        | true =>
            rw [show collapseRuns true (x :: xs) = collapseRuns true xs from by
              simp [collapseRuns, hx]]
            exact ih true
        | false =>
            rw [show collapseRuns false (x :: xs) =
                '-' :: collapseRuns true xs from by simp [collapseRuns, hx]]
            rcases collapseRuns_true_head xs with h0 | ⟨c, cs, hcc, hc⟩
            · rw [h0]; rfl
            · rw [hcc]
              have hcn : (c == '-') = false := by
                cases h2 : (c == '-') with
                | false => rfl
                | true => rw [h2, Bool.or_true] at hc; exact absurd hc (by simp)
              have hrest := ih true
              rw [hcc] at hrest
              simp [noAdjacentHyphens, hcn, hrest]
      · rw [show collapseRuns inRun (x :: xs) = x :: collapseRuns false xs from by
          simp [collapseRuns, hx]]
        have hxn : (x == '-') = false := by
          cases h2 : (x == '-') with
          | false => rfl
          | true => rw [h2, Bool.or_true] at hx; exact absurd rfl hx
        have hrest := ih false
        cases hc2 : collapseRuns false xs with
        | nil => rfl
        | cons y ys =>
            rw [hc2] at hrest
            simp [noAdjacentHyphens, hxn, hrest]

/-- Stripping whitespace from the ends keeps only input characters. -/
theorem mem_stripChars {c : Char} {l : List Char} (h : c ∈ stripChars l) :
    c ∈ l := by
  unfold stripChars at h
  rw [List.mem_reverse] at h
  have h1 := (List.dropWhile_sublist _).subset h
  rw [List.mem_reverse] at h1
  exact (List.dropWhile_sublist _).subset h1

/-- Every character of a sanitized filename is alphanumeric, an
underscore, a dot, or a hyphen. -/
theorem sanitize_filename_chars (s : String) :
    ∀ c ∈ (sanitize_filename s).toList,
      (isWordChar c || c == '.' || c == '-') = true := by
  intro c hc
  have hc2 : c ∈ collapseRuns false
      (stripChars (((s.toList.map nfkdAsciiChar).flatten).filter
        (fun c => isWordChar c || isPySpace c || c == '.' || c == '-'))) := hc
  rcases mem_collapseRuns c _ false hc2 with rfl | ⟨hmem, hrun⟩
  · simp
  · have hpred := (List.mem_filter.mp (mem_stripChars hmem)).2
    cases hw : isWordChar c <;> cases hd : (c == '.') <;>
      cases hh : (c == '-') <;> cases hs : isPySpace c <;> simp_all

/-- C6: `sanitize_filename` maps the spec's example
"Báo cáo (final) v2.docx" to "Bao-cao-final-v2.docx"; for every
filename its output consists solely of alphanumerics, underscore,
hyphen and dot, with no two adjacent hyphens (runs collapsed); and
`add_comment` stores the original filename unchanged while using the
sanitized form only inside the storage path. -/
theorem C6_sanitize_filename_props :
    sanitize_filename "Báo cáo (final) v2.docx" = "Bao-cao-final-v2.docx" ∧
    (∀ s : String, ((sanitize_filename s).toList.all
        (fun c => isWordChar c || c == '.' || c == '-')) = true) ∧
    (∀ s : String, noAdjacentHyphens (sanitize_filename s).toList = true) ∧
    (∀ (tid : Nat) (uid : String) (ts : Nat) (name : String),
        (add_comment_record tid uid ts name).attachment_original_name =
          some name) ∧
    (∀ (tid : Nat) (uid : String) (ts : Nat) (name : String),
        (add_comment_record tid uid ts name).file_path =
          "task_" ++ toString tid ++ "/" ++ uid ++ "_" ++ toString ts ++ "_" ++
            sanitize_filename name) := by
  refine ⟨by decide, ?_, ?_, fun tid uid ts name => rfl,
    fun tid uid ts name => rfl⟩
  · intro s
    exact List.all_eq_true.mpr (fun c hc => sanitize_filename_chars s c hc)
  · intro s
    exact noAdjacentHyphens_collapseRuns _ false

/-- C8: once more than 1800 seconds elapse since the last recorded
activity the session is idle-expired and the expiry is sticky (the
render does not refresh `last_activity_time`, so any later render is
still expired); in the expired state a status-change attempt leaves the
task status unchanged, and a submitted comment draft (text and attached
filename) is echoed back instead of being submitted or lost. -/
theorem C8_idle_guard_props :
    (∀ (la : Option Int) (now1 now2 : Int),
        (idle_check la now1).1 = true → now1 ≤ now2 →
        (idle_check la now1).2 = la ∧
          (idle_check (idle_check la now1).2 now2).1 = true) ∧
    (∀ (is_manager_completed : Bool) (current new_status : String),
        task_status_after (is_manager_completed || true) current new_status =
          current) ∧
    (∀ (is_manager_completed : Bool) (content file_name : Option String),
        (content.isSome || file_name.isSome) = true →
        comment_form_step true is_manager_completed true content file_name =
          { draft_echoed := true, echoed_text := content,
            echoed_file := file_name, submitted_to_backend := false }) := by
  refine ⟨?_, ?_, ?_⟩
  · intro la now1 now2 hexp hle
    cases la with
    | none => simp [idle_check] at hexp
    | some t =>
        have ht : now1 - t > TIMEOUT_IN_SECONDS := by
          simpa [idle_check] using hexp
        have h2 : (idle_check (some t) now1).2 = some t := by
          simp [idle_check, ht]
        refine ⟨h2, ?_⟩
        rw [h2]
        simp only [idle_check, decide_eq_true_eq]
        omega
  · intro mc current new_status
    simp [task_status_after, status_update_executes]
  · intro mc content file_name h
    simp [comment_form_step, h]

/-- C8 witness: a session last active at 0 viewed at 1801 is expired,
keeps its activity instant, is still expired at 3600, and an expired
submit echoes the draft without a backend write. -/
theorem C8_idle_guard_props_witness :
    (idle_check (some 0) 1801).2 = some 0 ∧
    (idle_check (idle_check (some 0) 1801).2 3600).1 = true ∧
    comment_form_step true false true (some "draft") (some "a.docx") =
      { draft_echoed := true, echoed_text := some "draft",
        echoed_file := some "a.docx", submitted_to_backend := false } :=
  ⟨(C8_idle_guard_props.1 (some 0) 1801 3600 (by decide) (by norm_num)).1,
   (C8_idle_guard_props.1 (some 0) 1801 3600 (by decide) (by norm_num)).2,
   C8_idle_guard_props.2.2 false (some "draft") (some "a.docx") (by decide)⟩

/-- C9 counterexample: the failed mark-as-read upsert is reported by a
server-console `print`, not by a user-visible message, contrary to the
claim's "in particular" case. -/
theorem C9_counterexample :
    error_sink .mark_task_as_read_op ≠ .userMessage := by decide

/-- C9 amended: every core backend call site catches its errors and
reports them as a user-visible message — except the mark-as-read
upsert, whose failure is logged to the server console and is not
user-visible (the operation is still aborted without retry). -/
theorem C9_error_reporting :
    (∀ op : CoreOp, op ≠ .mark_task_as_read_op →
        error_sink op = .userMessage) ∧
    error_sink .mark_task_as_read_op = .consoleLog := by
  refine ⟨?_, rfl⟩
  intro op hop
  cases op <;> first | rfl | exact absurd rfl hop

/-- C9 witness: the comment-fetch call site reports errors to the user. -/
theorem C9_error_reporting_witness :
    error_sink CoreOp.fetch_comments_op = ErrorSink.userMessage :=
  C9_error_reporting.1 .fetch_comments_op (by decide)

/-- C10: on any backend query failure the read operations degrade to
empty data — `fetch_my_tasks` and `fetch_comments` return the empty
list and `fetch_read_statuses` the empty dict, each indistinguishable
from a genuinely empty result — and with the read-status map empty the
derivation falls back to the epoch default, reporting a thread that a
stored read row acknowledges as "seen" to be "unread" instead. -/
theorem C10_fetch_degrade :
    (∀ e : String, fetch_my_tasks_result (.error e) = [] ∧
        fetch_my_tasks_result (.error e) = fetch_my_tasks_result (.ok [])) ∧
    (∀ e : String, fetch_comments_result (.error e) = [] ∧
        fetch_comments_result (.error e) = fetch_comments_result (.ok [])) ∧
    (∀ e : String, fetch_read_statuses_result (.error e) = [] ∧
        fetch_read_statuses_result (.error e) =
          fetch_read_statuses_result (.ok [])) ∧
    (∀ (viewer : String) (tid : Nat) (created r : Int) (c : CommentRec)
        (rest : List CommentRec),
        c.user_id ≠ viewer → created ≤ r → c.created_at ≤ r →
        0 < c.created_at →
        derive_status viewer tid created (c :: rest) [(tid, r)] = STATUS_SEEN ∧
        derive_status viewer tid created (c :: rest) [] = STATUS_UNREAD) := by
  refine ⟨fun e => ⟨rfl, rfl⟩, fun e => ⟨rfl, rfl⟩, fun e => ⟨rfl, rfl⟩, ?_⟩
  intro viewer tid created r c rest hne hcr hcc hpos
  constructor
  · simp only [derive_status, List.lookup, beq_self_eq_true, Option.getD_some]
    rw [if_neg hne, if_neg (by split_ifs <;> omega)]
  · simp only [derive_status, List.lookup_nil, Option.getD_none]
    rw [if_neg hne, if_pos (by split_ifs <;> omega)]

/-- C10 witness: a thread acknowledged at 100 with newest foreign
comment at 100 on a task created at 50 is "seen" with the stored map
and "unread" with the empty fallback map. -/
theorem C10_fetch_degrade_witness :
    derive_status "m" 1 50 [⟨"e", 100⟩] [(1, 100)] = STATUS_SEEN ∧
    derive_status "m" 1 50 [⟨"e", 100⟩] [] = STATUS_UNREAD :=
  C10_fetch_degrade.2.2.2 "m" 1 50 100 ⟨"e", 100⟩ [] (by decide)
    (by norm_num) (by norm_num) (by norm_num)
